import Mathlib

/-!
# env-guard: verification of the environment-variable validation engine

Shallow embedding of the `guard` function of env-guard (`index.js`, reproduced
in the repository's README).  The JavaScript engine walks a schema object, reads
raw string values from `process.env`, applies missing/default, type-casting and
`oneOf` rules, prints a line per processed key and calls `process.exit(1)` at
the first violation.

Modelling decisions (all effects made explicit, nothing else changed):
* `process.env` becomes an explicit argument `env : String → Option String`;
  `none` is an unset variable, `some s` a set one (possibly the empty string).
* console output becomes an ordered list of `Event`s, one per printed line.
* `process.exit(1)` becomes the `GuardResult.exited` constructor carrying the
  events printed so far and the exit code; keys after the exit point are never
  evaluated, exactly as in the source.
* JavaScript numbers are modelled as exact rationals plus explicit `inf`,
  `negInf` and `nan` markers (`JsNum`); the claims decided here depend only on
  parse success, NaN-ness, signed infinity and equality of small literals,
  never on double rounding.  `Number(string)` is modelled by `jsNumOfString`
  (trimmed input; empty → 0; `Infinity` forms; signed decimal literals with
  optional fraction and exponent; `0x`/`0o`/`0b` radix literals; anything
  else → NaN), and `Array.prototype.includes` by list membership under
  `Value` equality (SameValueZero: `nan` equals `nan`, as in `includes`).
-/

/-- The three schema kinds: `type: "string" | "number" | "boolean"`. -/
inductive RuleType
  | string
  | number
  | boolean
deriving DecidableEq, Repr

/-- JavaScript numbers as seen by this program: an exact rational or one of
the non-finite markers. -/
inductive JsNum
  | finite (q : ℚ)
  | inf
  | negInf
  | nan
deriving DecidableEq, Repr

/-- JavaScript values that flow through `guard`: raw strings, numbers produced
by casting, booleans produced by casting, and `undefined`. -/
inductive Value
  | vStr (s : String)
  | vNum (n : JsNum)
  | vBool (b : Bool)
  | vUndefined
deriving DecidableEq, Repr

/-- One schema entry (the `EnvSchema` record of `index.d.ts`): `type`,
optional `required` (absent = `false`, falsy), optional `default`
(`none` = the JS `undefined`), optional `oneOf` list. -/
structure Rule where
  type : RuleType
  required : Bool := false
  default : Option Value := none
  oneOf : Option (List Value) := none
deriving DecidableEq, Repr

/-- A schema: variable names with their rules, in declaration order
(JS `for (const key in schema)` iterates string keys in insertion order). -/
abbrev Schema := List (String × Rule)

/-- The raw environment: `process.env` restricted to lookups. -/
abbrev Env := String → Option String

/-- One printed console line, kept with enough payload to render the source's
message: the red error lines and the green per-key success line. -/
inductive Event
  | errMissing (key : String)
  | errNotNumber (key : String) (got : Value)
  | errNotAllowed (key : String) (allowed : List Value)
  | okLine (key : String)
deriving DecidableEq, Repr

/-- Digit accumulation for decimal literals. -/
def natOfDigits (ds : List Char) : ℕ :=
  ds.foldl (fun a c => a * 10 + (c.toNat - '0'.toNat)) 0

/-- Exact value of a decimal literal with integer digits `ip`, fraction digits
`fp` and decimal exponent `e`: `(ip.fp) * 10 ^ e` as a rational, computed with
integer arithmetic and a single normalising `mkRat`. -/
def decValue (ip fp : List Char) (e : ℤ) : ℚ :=
  let num : ℕ := natOfDigits ip * 10 ^ fp.length + natOfDigits fp
  match e with
  | .ofNat k => mkRat (num * 10 ^ k) (10 ^ fp.length)
  | .negSucc k => mkRat num (10 ^ fp.length * 10 ^ (k + 1))

/-- The exponent suffix of a decimal literal: empty input means exponent 0;
otherwise `e`/`E`, an optional sign and at least one digit, consuming the
whole rest (trailing junk makes `Number` return NaN). -/
def parseExpSuffix : List Char → Option ℤ
  | [] => some 0
  | c :: rest =>
    if c = 'e' ∨ c = 'E' then
      match rest with
      | '+' :: ds => if ds ≠ [] ∧ ds.all Char.isDigit then some (natOfDigits ds) else none
      | '-' :: ds => if ds ≠ [] ∧ ds.all Char.isDigit then some (-(natOfDigits ds : ℤ)) else none
      | ds => if ds ≠ [] ∧ ds.all Char.isDigit then some (natOfDigits ds) else none
    else none

/-- An unsigned decimal literal `digits [. digits] [exp]` or `. digits [exp]`,
requiring at least one digit and full consumption of the input. -/
def parseDec (cs : List Char) : Option ℚ :=
  let ip := cs.takeWhile Char.isDigit
  let rest := cs.dropWhile Char.isDigit
  match rest with
  | '.' :: rest2 =>
    let fp := rest2.takeWhile Char.isDigit
    let rest3 := rest2.dropWhile Char.isDigit
    if ip = [] ∧ fp = [] then none
    else (parseExpSuffix rest3).map (fun e => decValue ip fp e)
  | _ =>
    if ip = [] then none
    else (parseExpSuffix rest).map (fun e => decValue ip [] e)

/-- Digit value in a given radix, for `0x`/`0o`/`0b` literals. -/
def radixDigit (radix : ℕ) (c : Char) : Option ℕ :=
  let v :=
    if c.isDigit then some (c.toNat - '0'.toNat)
    else if 'a' ≤ c ∧ c ≤ 'f' then some (c.toNat - 'a'.toNat + 10)
    else if 'A' ≤ c ∧ c ≤ 'F' then some (c.toNat - 'A'.toNat + 10)
    else none
  match v with
  | some d => if d < radix then some d else none
  | none => none

/-- A nonempty digit string in a given radix, consuming everything. -/
def parseRadix (radix : ℕ) (cs : List Char) : Option ℚ :=
  if cs = [] then none
  else
    (cs.foldl (fun a c => a.bind fun n => (radixDigit radix c).map fun d => n * radix + d)
      (some 0)).map (fun n : ℕ => mkRat n 1)

/-- The body of `Number(string)` after trimming: `Infinity` forms, radix
literals, signed decimal literals; everything else is NaN. -/
def jsNumOfTrimmed (cs : List Char) : JsNum :=
  match cs with
  | '0' :: 'x' :: rest => match parseRadix 16 rest with
    | some q => .finite q
    | none => .nan
  | '0' :: 'X' :: rest => match parseRadix 16 rest with
    | some q => .finite q
    | none => .nan
  | '0' :: 'o' :: rest => match parseRadix 8 rest with
    | some q => .finite q
    | none => .nan
  | '0' :: 'O' :: rest => match parseRadix 8 rest with
    | some q => .finite q
    | none => .nan
  | '0' :: 'b' :: rest => match parseRadix 2 rest with
    | some q => .finite q
    | none => .nan
  | '0' :: 'B' :: rest => match parseRadix 2 rest with
    | some q => .finite q
    | none => .nan
  | '+' :: rest =>
    if rest = "Infinity".toList then .inf
    else match parseDec rest with
      | some q => .finite q
      | none => .nan
  | '-' :: rest =>
    if rest = "Infinity".toList then .negInf
    else match parseDec rest with
      | some q => .finite (Rat.neg q)
      | none => .nan
  | _ =>
    if cs = "Infinity".toList then .inf
    else match parseDec cs with
      | some q => .finite q
      | none => .nan

/-- ASCII whitespace stripped by the conversion (JS also strips some Unicode
space characters; the program only meets ASCII input). -/
def isSpaceChar (c : Char) : Bool :=
  c = ' ' ∨ c = '\t' ∨ c = '\n' ∨ c = '\r' ∨ c = '\x0b' ∨ c = '\x0c'

/-- Leading and trailing whitespace removal. -/
def trimChars (cs : List Char) : List Char :=
  ((cs.dropWhile isSpaceChar).reverse.dropWhile isSpaceChar).reverse

/-- `Number(s)` for a string `s`: trim; the empty string converts to 0;
otherwise parse a numeric literal, NaN on failure. -/
def jsNumOfString (s : String) : JsNum :=
  let t := trimChars s.toList
  if t = [] then .finite 0 else jsNumOfTrimmed t

/-- `Number(v)` for the values that can reach the cast (`v != null` holds at
the call sites with a string raw value or a schema default). -/
def jsToNumber : Value → JsNum
  | .vStr s => jsNumOfString s
  | .vNum n => n
  | .vBool b => .finite (if b then 1 else 0)
  | .vUndefined => .nan

/-- JavaScript strict equality `v === lit` against a string literal: true only
for the identical string, false across types. -/
def strictEqStr (v : Value) (lit : String) : Bool :=
  match v with
  | .vStr t => t = lit
  | _ => false

/-- The outcome the engine computes for a single key: the value stored into
`result[key]`, or the error event after which `process.exit(1)` fires. -/
inductive KeyOutcome
  | accepted (v : Value)
  | rejected (e : Event)
deriving DecidableEq, Repr

/-- The type-casting block of `guard`: for `"number"`, `Number(value)` with an
error when the result `isNaN`; for `"boolean"`,
`value === "true" || value === "1"`; no cast for `"string"`.  Both casts are
skipped when `value` is `null`/`undefined` (`value != null` guard). -/
def castStep (key : String) (t : RuleType) (v : Value) : Except Event Value :=
  match t with
  | .number =>
    if v = .vUndefined then .ok v
    else match jsToNumber v with
      | .nan => .error (.errNotNumber key v)
      | n => .ok (.vNum n)
  | .boolean =>
    if v = .vUndefined then .ok v
    else .ok (.vBool (strictEqStr v "true" || strictEqStr v "1"))
  | .string => .ok v

/-- The whole per-key body of the `for` loop: missing check (with the
`value == null || value === ""` test and default substitution), type casting,
`oneOf` membership on the cast value. -/
def guardKey (key : String) (rule : Rule) (raw : Option String) : KeyOutcome :=
  let v0 : Value := match raw with
    | some s => .vStr s
    | none => .vUndefined
  let resolved : Except Event Value :=
    if v0 = .vUndefined ∨ v0 = .vStr "" then
      if rule.required = true ∧ rule.default = none then .error (.errMissing key)
      else .ok (match rule.default with
        | some d => d
        | none => .vUndefined)
    else .ok v0
  match resolved with
  | .error e => .rejected e
  | .ok v1 =>
    match castStep key rule.type v1 with
    | .error e => .rejected e
    | .ok v2 =>
      match rule.oneOf with
      | some allowed =>
        if allowed.contains v2 then .accepted v2
        else .rejected (.errNotAllowed key allowed)
      | none => .accepted v2

/-- A run of `guard`: either the process exits with the console lines printed
so far (the error line last), or the loop completes and the `result` object is
returned, with one green line per key. -/
inductive GuardResult
  | exited (events : List Event) (code : ℕ)
  | returned (config : List (String × Value)) (events : List Event)
deriving DecidableEq, Repr

/-- The `for (const key in schema)` loop, threading the partial `result`
object and the console lines printed so far. -/
def guardAux (env : Env) : List (String × Rule) → List (String × Value) → List Event → GuardResult
  | [], config, events => .returned config events
  | (key, rule) :: rest, config, events =>
    match guardKey key rule (env key) with
    | .rejected e => .exited (events ++ [e]) 1
    | .accepted v => guardAux env rest (config ++ [(key, v)]) (events ++ [.okLine key])

/-- `guard(schema)` run against an explicit environment. -/
def guardRun (schema : Schema) (env : Env) : GuardResult :=
  guardAux env schema [] []

/-- The mutable world visible to `guard`: the process environment it reads
and the console it appends to.  The source reads `process.env` and prints
via `console.log`/`console.error` but never writes the environment. -/
structure World where
  env : Env
  console : List Event

/-- The console lines a run prints, in both the exiting and the returning
case. -/
def eventsOf : GuardResult → List Event
  | .exited evs _ => evs
  | .returned _ evs => evs

/-- A run of `guard` against a world: the result together with the world
afterwards — environment untouched, console extended by the printed lines. -/
def guardW (schema : Schema) (w : World) : GuardResult × World :=
  let r := guardRun schema w.env
  (r, ⟨w.env, w.console ++ eventsOf r⟩)

/-- The loop is pointwise in the environment: two environments giving every
schema key the same per-key outcome give the same overall run. -/
theorem guardAux_congr (e1 e2 : Env) (s : List (String × Rule)) :
    (∀ kr ∈ s, guardKey kr.1 kr.2 (e1 kr.1) = guardKey kr.1 kr.2 (e2 kr.1)) →
    ∀ (cfg : List (String × Value)) (evs : List Event),
      guardAux e1 s cfg evs = guardAux e2 s cfg evs := by
  induction s with
  | nil => intro _ cfg evs; rfl
  | cons kr rest ih =>
    intro h cfg evs
    obtain ⟨k, r⟩ := kr
    have hh : guardKey k r (e1 k) = guardKey k r (e2 k) := h (k, r) (by simp)
    simp only [guardAux]
    rw [hh]
    cases hg : guardKey k r (e2 k) with
    | rejected ev => rfl
    | accepted v => exact ih (fun kr2 hkr2 => h kr2 (by simp [hkr2])) _ _

/-- If every key of a prefix is accepted and the next key is rejected, the
loop prints the prefix's success lines and the one error line, then exits
with code 1; everything after the rejected key is never evaluated. -/
theorem guardAux_exit (e : Env) (k : String) (r : Rule) (post : List (String × Rule))
    (ev : Event) (hk : guardKey k r (e k) = .rejected ev) :
    ∀ (pre : List (String × Rule)),
      (∀ kr ∈ pre, ∃ v, guardKey kr.1 kr.2 (e kr.1) = .accepted v) →
      ∀ (cfg : List (String × Value)) (evs : List Event),
        guardAux e (pre ++ (k, r) :: post) cfg evs =
          .exited ((evs ++ pre.map fun kr => Event.okLine kr.1) ++ [ev]) 1 := by
  intro pre
  induction pre with
  | nil =>
    intro _ cfg evs
    simp only [List.nil_append, guardAux, hk, List.map_nil, List.append_nil]
  | cons kr0 rest ih =>
    intro h cfg evs
    obtain ⟨k0, r0⟩ := kr0
    obtain ⟨v0, hv0⟩ := h (k0, r0) (by simp)
    simp only [List.cons_append, guardAux, hv0]
    have h2 := ih (fun kr2 hkr2 => h kr2 (by simp [hkr2])) (cfg ++ [(k0, v0)])
      (evs ++ [Event.okLine k0])
    simp only [List.append_eq] at h2 ⊢
    rw [h2]
    simp [List.append_assoc]

/-- Every key of a returned configuration comes from the accumulator or from
the remaining schema. -/
theorem guardAux_keys (e : Env) (s : List (String × Rule)) :
    ∀ (cfg : List (String × Value)) (evs : List Event)
      (cfg2 : List (String × Value)) (evs2 : List Event),
      guardAux e s cfg evs = .returned cfg2 evs2 →
      ∀ kv ∈ cfg2, kv.1 ∈ cfg.map Prod.fst ∨ kv.1 ∈ s.map Prod.fst := by
  induction s with
  | nil =>
    intro cfg evs cfg2 evs2 h kv hkv
    simp only [guardAux, GuardResult.returned.injEq] at h
    left
    exact List.mem_map_of_mem Prod.fst (h.1 ▸ hkv)
  | cons kr rest ih =>
    intro cfg evs cfg2 evs2 h kv hkv
    obtain ⟨k, r⟩ := kr
    simp only [guardAux] at h
    cases hg : guardKey k r (e k) with
    | rejected ev => rw [hg] at h; exact absurd h (by simp)
    | accepted v =>
      rw [hg] at h
      have := ih (cfg ++ [(k, v)]) (evs ++ [Event.okLine k]) cfg2 evs2 h kv hkv
      rcases this with h1 | h2
      · simp only [List.map_append, List.mem_append, List.map_cons, List.map_nil,
          List.mem_singleton] at h1
        rcases h1 with h1 | h1
        · exact Or.inl h1
        · exact Or.inr (by simp [h1])
      · exact Or.inr (by simp [h2])

/-- C1 (counterexample): with two violating required keys, `guard` does not
return a failure carrying both rejection reasons: it prints the first key's
error line only and terminates the process with exit code 1, so the run both
performs console output and never reports the second key's reason. -/
theorem guard_first_error_only_counterexample :
    guardRun [("A", { type := RuleType.string, required := true }),
              ("B", { type := RuleType.string, required := true })] (fun _ => none) =
      .exited [Event.errMissing "A"] 1 ∧
    Event.errMissing "B" ∉ [Event.errMissing "A"] :=
  ⟨by decide, by decide⟩

/-- C1 (amended): `guard` evaluates keys in declaration order and, at the
first key whose outcome is a rejection, terminates the process with exit
code 1 after printing one success line per previously accepted key followed
by the single error line of that first violation; later keys are never
evaluated and only the first rejection reason is reported. -/
theorem guard_exits_at_first_rejection (e : Env) (pre post : List (String × Rule))
    (k : String) (r : Rule) (ev : Event)
    (hpre : ∀ kr ∈ pre, ∃ v, guardKey kr.1 kr.2 (e kr.1) = .accepted v)
    (hk : guardKey k r (e k) = .rejected ev) :
    guardRun (pre ++ (k, r) :: post) e =
      .exited ((pre.map fun kr => Event.okLine kr.1) ++ [ev]) 1 := by
  have h2 := guardAux_exit e k r post ev hk pre hpre [] []
  simpa [guardRun] using h2

/-- C1 (witness): one accepted key, then a rejected required key, then a key
that is never reached. -/
theorem guard_exits_at_first_rejection_witness :
    guardRun [("P", { type := RuleType.string }),
              ("Q", { type := RuleType.string, required := true }),
              ("R", { type := RuleType.string })]
        (fun k => if k = "P" then some "x" else none) =
      .exited [Event.okLine "P", Event.errMissing "Q"] 1 := by
  have h2 := guard_exits_at_first_rejection
    (fun k => if k = "P" then some "x" else none)
    [("P", { type := RuleType.string })] [("R", { type := RuleType.string })]
    "Q" { type := RuleType.string, required := true } (Event.errMissing "Q")
    (by
      intro kr hkr
      rw [List.mem_singleton] at hkr
      subst hkr
      exact ⟨Value.vStr "x", by decide⟩)
    (by decide)
  simpa using h2

/-- C2 (code bug): evaluation of `guard` at the failing input.  A
Boolean-typed key with default `true` and no environment value yields
`false`, not the default verbatim: the default is pushed through the boolean
cast, and `true === "true" || true === "1"` is `false`. -/
theorem guard_boolean_default_is_cast :
    guardRun [("ENABLE_CACHING",
               { type := RuleType.boolean, default := some (Value.vBool true) })]
        (fun _ => none) =
      .returned [("ENABLE_CACHING", Value.vBool false)] [Event.okLine "ENABLE_CACHING"] := by
  decide

/-- An absent key with no default resolves to `undefined`; whatever the
declared type, the cast is skipped (`value != null` fails) and the outcome is
decided by the `oneOf` check on `undefined`. -/
theorem guardKey_absent_no_default (key : String) (rule : Rule)
    (hreq : rule.required = false) (hdef : rule.default = none) :
    guardKey key rule none =
      match rule.oneOf with
      | none => .accepted Value.vUndefined
      | some l =>
        if Value.vUndefined ∈ l then .accepted Value.vUndefined
        else .rejected (.errNotAllowed key l) := by
  unfold guardKey
  simp only [hreq, hdef]
  cases rule.type <;> cases rule.oneOf <;> simp [castStep]

/-- C3 (counterexample): an absent, optional, defaultless key is not always
error-free and is never omitted from the result: with a `oneOf` rule the key
is rejected — the membership check runs on the `undefined` value — and
without `oneOf` the key appears in the returned object bound to `undefined`
instead of being left out. -/
theorem guard_optional_absent_counterexample :
    guardRun [("LOG_LEVEL",
               { type := RuleType.string, oneOf := some [Value.vStr "info"] })]
        (fun _ => none) =
      .exited [Event.errNotAllowed "LOG_LEVEL" [Value.vStr "info"]] 1 ∧
    guardRun [("OPT", { type := RuleType.string })] (fun _ => none) =
      .returned [("OPT", Value.vUndefined)] [Event.okLine "OPT"] :=
  ⟨by decide, by decide⟩

/-- C3 (amended): for an absent key that is not required and has no default,
the resolved value is `undefined`: if the rule has no `oneOf`, no error is
emitted but the key is stored in the result as an `undefined` placeholder
entry; if the rule has a `oneOf` list not containing `undefined`, the key is
rejected with the not-allowed error. -/
theorem guard_optional_absent (key : String) (rule : Rule)
    (hreq : rule.required = false) (hdef : rule.default = none) :
    (rule.oneOf = none →
      guardKey key rule none = .accepted Value.vUndefined ∧
      ∀ e : Env, e key = none →
        guardRun [(key, rule)] e =
          .returned [(key, Value.vUndefined)] [Event.okLine key]) ∧
    (∀ l, rule.oneOf = some l → Value.vUndefined ∉ l →
      guardKey key rule none = .rejected (.errNotAllowed key l)) := by
  have hk := guardKey_absent_no_default key rule hreq hdef
  constructor
  · intro hone
    rw [hone] at hk
    refine ⟨hk, fun e he => ?_⟩
    simp [guardRun, guardAux, he, hk]
  · intro l hone hmem
    rw [hone] at hk
    rw [hk]
    simp [hmem]

/-- C3 (witness): the amended statement at a `oneOf` rule and at a plain
rule. -/
theorem guard_optional_absent_witness :
    guardKey "L" { type := RuleType.string, oneOf := some [Value.vStr "a"] } none =
      .rejected (.errNotAllowed "L" [Value.vStr "a"]) ∧
    guardKey "O" { type := RuleType.string } none = .accepted Value.vUndefined :=
  ⟨(guard_optional_absent "L"
      { type := RuleType.string, oneOf := some [Value.vStr "a"] } rfl rfl).2
      [Value.vStr "a"] rfl (by decide),
   ((guard_optional_absent "O" { type := RuleType.string } rfl rfl).1 rfl).1⟩

/-- C4: boolean coercion is total and never errors: for every present raw
string, the cast succeeds and yields `true` exactly for `"true"` and `"1"`
and `false` for every other string, and a Boolean-typed rule without `oneOf`
always accepts the cast value. -/
theorem boolean_coercion_never_fails (key raw : String) (h : raw ≠ "") :
    castStep key RuleType.boolean (.vStr raw) =
      .ok (.vBool (decide (raw = "true") || decide (raw = "1"))) ∧
    ∀ (req : Bool) (df : Option Value),
      guardKey key
          { type := RuleType.boolean, required := req, default := df, oneOf := none }
          (some raw) =
        .accepted (.vBool (decide (raw = "true") || decide (raw = "1"))) := by
  constructor
  · simp [castStep, strictEqStr]
  · intro req df
    unfold guardKey
    simp [castStep, strictEqStr, h]

/-- C4 (witness): the raw strings "yes" and "1" at a Boolean-typed key. -/
theorem boolean_coercion_never_fails_witness :
    guardKey "D" { type := RuleType.boolean } (some "yes") =
      .accepted (Value.vBool false) ∧
    guardKey "E" { type := RuleType.boolean } (some "1") =
      .accepted (Value.vBool true) :=
  ⟨by simpa using (boolean_coercion_never_fails "D" "yes" (by decide)).2 false none,
   by simpa using (boolean_coercion_never_fails "E" "1" (by decide)).2 false none⟩

/-- C5 (counterexample): the numeric check only rejects NaN, not non-finite
values: the raw string "Infinity" passes `isNaN` and is accepted, so a
Number-typed entry of the result can be infinite. -/
theorem number_accepts_infinity_counterexample :
    guardRun [("X", { type := RuleType.number })] (fun _ => some "Infinity") =
      .returned [("X", Value.vNum JsNum.inf)] [Event.okLine "X"] := by
  decide

/-- C5 (amended): a present raw value at a Number-typed key without `oneOf`
is converted with `Number(...)`; a raw string converting to NaN is rejected
with the must-be-a-number error, and any other conversion result — finite or
infinite — is accepted, so an accepted Number-typed value is never NaN but
may be infinite. -/
theorem number_cast_rejects_only_nan (key raw : String) (rule : Rule)
    (ht : rule.type = RuleType.number) (hone : rule.oneOf = none) (h : raw ≠ "") :
    guardKey key rule (some raw) =
      (match jsNumOfString raw with
       | JsNum.nan => .rejected (.errNotNumber key (.vStr raw))
       | n => .accepted (.vNum n)) ∧
    ∀ v, guardKey key rule (some raw) = .accepted v → v ≠ Value.vNum JsNum.nan := by
  have h1 : guardKey key rule (some raw) =
      (match jsNumOfString raw with
       | JsNum.nan => .rejected (.errNotNumber key (.vStr raw))
       | n => .accepted (.vNum n)) := by
    unfold guardKey
    simp only [ht, hone]
    cases hx : jsNumOfString raw <;> simp [castStep, jsToNumber, h, hx]
  refine ⟨h1, fun v hv => ?_⟩
  rw [h1] at hv
  cases hx : jsNumOfString raw <;> rw [hx] at hv
  · cases hv; simp
  · cases hv; simp
  · cases hv; simp
  · simp at hv

/-- C5 (witness): the raw string "12.5" parses to the rational 25/2 and is
accepted. -/
theorem number_cast_rejects_only_nan_witness :
    guardKey "P" { type := RuleType.number } (some "12.5") =
      .accepted (Value.vNum (JsNum.finite (mkRat 25 2))) := by
  have h1 := (number_cast_rejects_only_nan "P" "12.5"
    { type := RuleType.number } rfl rfl (by decide)).1
  rw [h1]
  decide

/-- C6: the `oneOf` membership test runs on the coerced value: whenever the
cast of a present raw value succeeds with a value listed in `oneOf`, the key
is accepted with that value and is in particular never rejected as
not-allowed. -/
theorem oneOf_checked_post_coercion (key raw : String) (rule : Rule)
    (l : List Value) (v : Value) (h : raw ≠ "") (hone : rule.oneOf = some l)
    (hcast : castStep key rule.type (.vStr raw) = .ok v) (hmem : v ∈ l) :
    guardKey key rule (some raw) = .accepted v := by
  unfold guardKey
  simp [h, hcast, hone, hmem]

/-- C6 (witness): the spec's own example — `type: "number"`,
`oneOf: [1, 2, 3]`, raw value "2" — passes the check with the numeric 2. -/
theorem oneOf_checked_post_coercion_witness :
    guardKey "N"
        { type := RuleType.number,
          oneOf := some [Value.vNum (JsNum.finite 1), Value.vNum (JsNum.finite 2),
                         Value.vNum (JsNum.finite 3)] }
        (some "2") =
      .accepted (Value.vNum (JsNum.finite 2)) :=
  oneOf_checked_post_coercion "N" "2" _ _ (Value.vNum (JsNum.finite 2))
    (by decide) rfl (by rfl) (by decide)

/-- C7: the empty string and an absent variable are interchangeable: every
rule gives them the same per-key outcome, and a whole run is unchanged when a
key bound to the empty string is removed from the environment. -/
theorem empty_string_equals_absent :
    (∀ (key : String) (rule : Rule),
      guardKey key rule (some "") = guardKey key rule none) ∧
    ∀ (schema : Schema) (e : Env) (k : String), e k = some "" →
      guardRun schema e = guardRun schema (fun k2 => if k2 = k then none else e k2) := by
  constructor
  · intro key rule
    rfl
  · intro schema e k hk
    refine guardAux_congr e _ schema (fun kr _ => ?_) [] []
    by_cases hkr : kr.1 = k
    · rw [hkr, hk]
      simp only [if_pos rfl]
      rfl
    · simp [hkr]

/-- C7 (witness): a concrete schema whose key is bound to the empty string
behaves as if the key were unset. -/
theorem empty_string_equals_absent_witness :
    guardRun [("E", { type := RuleType.string, default := some (Value.vStr "d") })]
        (fun _ => some "") =
      guardRun [("E", { type := RuleType.string, default := some (Value.vStr "d") })]
        (fun k2 => if k2 = "E" then none else some "") :=
  empty_string_equals_absent.2
    [("E", { type := RuleType.string, default := some (Value.vStr "d") })]
    (fun _ => some "") "E" rfl

/-- C8: `guard` is a pure function of schema and environment: a run never
mutates the environment, rerunning it on the resulting world returns the
identical result, and the hidden console state has no influence on the
result. -/
theorem guard_pure_deterministic (schema : Schema) (w : World) :
    (guardW schema w).2.env = w.env ∧
    (guardW schema ((guardW schema w).2)).1 = (guardW schema w).1 ∧
    ∀ c1 c2 : List Event,
      (guardW schema ⟨w.env, c1⟩).1 = (guardW schema ⟨w.env, c2⟩).1 :=
  ⟨rfl, rfl, fun _ _ => rfl⟩

/-- C9: a defaulted value is not exempt from the later stages: when the key
is absent, the default is cast and then checked against `oneOf`, and a
default whose cast value is not listed is rejected with the not-allowed
error even though the environment never supplied a value. -/
theorem default_is_coerced_and_checked (key : String) (rule : Rule) (d : Value)
    (l : List Value) (v : Value) (hdef : rule.default = some d)
    (hone : rule.oneOf = some l) (hcast : castStep key rule.type d = .ok v)
    (hmem : v ∉ l) :
    guardKey key rule none = .rejected (.errNotAllowed key l) := by
  unfold guardKey
  simp [hdef, hone, hcast, hmem]

/-- C9 (witness): a string default "x" against `oneOf: ["a"]` is rejected
with no environment value present. -/
theorem default_is_coerced_and_checked_witness :
    guardKey "S"
        { type := RuleType.string, default := some (Value.vStr "x"),
          oneOf := some [Value.vStr "a"] }
        none =
      .rejected (.errNotAllowed "S" [Value.vStr "a"]) :=
  default_is_coerced_and_checked "S" _ (Value.vStr "x") [Value.vStr "a"]
    (Value.vStr "x") rfl rfl (by rfl) (by decide)

/-- C10: variables outside the schema never influence the outcome — two
environments agreeing on every schema key give identical runs — and every
key of a returned configuration is a schema key. -/
theorem undeclared_keys_never_influence :
    (∀ (schema : Schema) (e1 e2 : Env),
      (∀ kr ∈ schema, e1 kr.1 = e2 kr.1) →
      guardRun schema e1 = guardRun schema e2) ∧
    ∀ (schema : Schema) (e : Env) (cfg : List (String × Value)) (evs : List Event),
      guardRun schema e = .returned cfg evs →
      ∀ kv ∈ cfg, kv.1 ∈ schema.map Prod.fst := by
  constructor
  · intro schema e1 e2 h
    exact guardAux_congr e1 e2 schema (fun kr hkr => by rw [h kr hkr]) [] []
  · intro schema e cfg evs h kv hkv
    have h2 := guardAux_keys e schema [] [] cfg evs h kv hkv
    simpa using h2

/-- C10 (witness): an environment binding only an out-of-schema variable
behaves like the empty environment, and the returned key set is contained in
the schema's key set. -/
theorem undeclared_keys_never_influence_witness :
    guardRun [("K", { type := RuleType.string, default := some (Value.vStr "d") })]
        (fun _ => none) =
      guardRun [("K", { type := RuleType.string, default := some (Value.vStr "d") })]
        (fun k => if k = "K" then none else some "z") ∧
    ∀ kv ∈ [("K", Value.vStr "d")],
      kv.1 ∈ [("K", ({ type := RuleType.string, default := some (Value.vStr "d") } : Rule))].map
        Prod.fst :=
  ⟨undeclared_keys_never_influence.1
      [("K", { type := RuleType.string, default := some (Value.vStr "d") })]
      (fun _ => none) (fun k => if k = "K" then none else some "z")
      (by
        intro kr hkr
        rw [List.mem_singleton] at hkr
        subst hkr
        simp),
   undeclared_keys_never_influence.2
      [("K", { type := RuleType.string, default := some (Value.vStr "d") })]
      (fun _ => none) [("K", Value.vStr "d")] [Event.okLine "K"] (by decide)⟩
